import Mathlib

/-!
Shallow embedding of the Game of Life engine in src/src/lib.rs
(crate wasm-game-of-life, struct Universe).

Modelling conventions:
* Machine integers (u32, usize, u8) are modelled as Nat.  The one place where
  u32 overflow is reachable from valid grids is the product width * height in
  Universe.new_cells; overflow there is modelled as a checked failure
  (Option.none), matching the panic of an overflow-checked build.  In every
  other arithmetic spot the operands are bounded below 2 ^ 32 whenever the
  surrounding call can succeed, so plain Nat arithmetic agrees with u32.
* fixedbitset::FixedBitSet is modelled as a List Bool, one entry per bit.
  contains is total and returns false for an out-of-range index, exactly as
  the library does; set and toggle panic on an out-of-range index, modelled
  as Option.none.
* Math.random draws inside shuffle are modelled by an oracle
  rand : Nat -> Bool giving the outcome of the comparison
  Math.random() < prob at the idx-th loop iteration.
* The Rust remainder operator panics on a zero divisor; insert_at therefore
  fails (none) when it would compute a remainder by a zero dimension.
-/

/-- Model of FixedBitSet.contains: total, false when the bit is out of range. -/
def fbs_contains (s : List Bool) (bit : Nat) : Bool := s.getD bit false

/-- Model of FixedBitSet.set: panics (none) when the bit is out of range. -/
def fbs_set (s : List Bool) (bit : Nat) (v : Bool) : Option (List Bool) :=
  if bit < s.length then some (s.set bit v) else none

/-- Model of FixedBitSet.toggle: panics (none) when the bit is out of range. -/
def fbs_toggle (s : List Bool) (bit : Nat) : Option (List Bool) :=
  if bit < s.length then some (s.set bit (!(s.getD bit false))) else none

/-- Model of FixedBitSet.clear: every bit dead, length kept. -/
def fbs_clear (s : List Bool) : List Bool := List.replicate s.length false

/-- The addressable u32 range bound. -/
def u32Bound : Nat := 2 ^ 32

/-- Model of the struct Universe: width, height, the two cell buffers of the
double-buffered design, and the active buffer index i (always 0 or 1). -/
structure Universe where
  width : Nat
  height : Nat
  cells0 : List Bool
  cells1 : List Bool
  i : Fin 2
deriving DecidableEq, Repr

namespace Universe

/-- Buffer selection, modelling self.cells[k]. -/
def bufAt (u : Universe) (k : Fin 2) : List Bool :=
  if k.val = 0 then u.cells0 else u.cells1

/-- The active buffer self.cells[self.i]. -/
def activeCells (u : Universe) : List Bool := u.bufAt u.i

/-- Replace buffer k, modelling an assignment to self.cells[k]. -/
def setBufAt (u : Universe) (k : Fin 2) (b : List Bool) : Universe :=
  if k.val = 0 then { u with cells0 := b } else { u with cells1 := b }

/-- Universe.get_index: linear index row * width + column. -/
def get_index (u : Universe) (row column : Nat) : Nat :=
  row * u.width + column

/-- Reading one cell of the active buffer through contains/get_index, the way
tick and the renderer read cells. -/
def readCell (u : Universe) (row column : Nat) : Bool :=
  fbs_contains u.activeCells (u.get_index row column)

/-- Universe.new_cells: FixedBitSet.with_capacity((width * height) as usize);
the u32 product overflows (panics) when width * height reaches 2 ^ 32. -/
def new_cells (width height : Nat) : Option (List Bool) :=
  if width * height < u32Bound then some (List.replicate (width * height) false)
  else none

/-- Universe.empty: two fresh all-dead buffers, active index 0.  The log line
and the panic-hook installation have no effect on the state. -/
def empty (width height : Nat) : Option Universe :=
  (new_cells width height).bind fun b0 =>
    (new_cells width height).map fun b1 =>
      { width := width, height := height, cells0 := b0, cells1 := b1, i := 0 }

/-- Universe.set_width: store the new width and reallocate both buffers. -/
def set_width (u : Universe) (width : Nat) : Option Universe :=
  (new_cells width u.height).bind fun b0 =>
    (new_cells width u.height).map fun b1 =>
      { u with width := width, cells0 := b0, cells1 := b1 }

/-- Universe.set_height: store the new height and reallocate both buffers. -/
def set_height (u : Universe) (height : Nat) : Option Universe :=
  (new_cells u.width height).bind fun b0 =>
    (new_cells u.width height).map fun b1 =>
      { u with height := height, cells0 := b0, cells1 := b1 }

/-- Universe.toggle_cell: flip the bit at get_index(row, column) in the active
buffer; FixedBitSet.toggle panics when the index is out of range. -/
def toggle_cell (u : Universe) (row column : Nat) : Option Universe :=
  (fbs_toggle u.activeCells (u.get_index row column)).map fun b =>
    u.setBufAt u.i b

/-- Universe.live_neighbor_count: eight wrapped lookups in the active buffer,
summed as u8 values (each 0 or 1, so Nat addition agrees with u8). -/
def live_neighbor_count (u : Universe) (row column : Nat) : Nat :=
  let north := if row = 0 then u.height - 1 else row - 1
  let south := if row = u.height - 1 then 0 else row + 1
  let west := if column = 0 then u.width - 1 else column - 1
  let east := if column = u.width - 1 then 0 else column + 1
  let cells := u.activeCells
  (fbs_contains cells (u.get_index north west)).toNat
    + (fbs_contains cells (u.get_index north column)).toNat
    + (fbs_contains cells (u.get_index north east)).toNat
    + (fbs_contains cells (u.get_index row west)).toNat
    + (fbs_contains cells (u.get_index row east)).toNat
    + (fbs_contains cells (u.get_index south west)).toNat
    + (fbs_contains cells (u.get_index south column)).toNat
    + (fbs_contains cells (u.get_index south east)).toNat

/-- The match expression inside Universe.tick, case for case. -/
def next_cell (cell : Bool) (live_neighbors : Nat) : Bool :=
  if cell ∧ live_neighbors < 2 then false
  else if cell ∧ (live_neighbors = 2 ∨ live_neighbors = 3) then true
  else if cell ∧ live_neighbors > 3 then false
  else if (!cell) ∧ live_neighbors = 3 then true
  else cell

/-- The other buffer index, modelling (self.i + 1) % 2. -/
def otherI (k : Fin 2) : Fin 2 := ⟨(k.val + 1) % 2, by omega⟩

/-- Universe.tick: for every (row, col) in row-major order, read the cell and
its live neighbor count from the active buffer, write the next state into the
inactive buffer, then flip the active index.  The Timer is pure observation. -/
def tick (u : Universe) : Option Universe :=
  let new_i := otherI u.i
  ((List.range u.height).foldl
      (fun ob row =>
        (List.range u.width).foldl
          (fun ob2 col =>
            ob2.bind fun b =>
              fbs_set b (u.get_index row col)
                (next_cell (fbs_contains u.activeCells (u.get_index row col))
                  (u.live_neighbor_count row col)))
          ob)
      (some (u.bufAt new_i))).map fun b =>
    { u.setBufAt new_i b with i := new_i }

/-- Universe.shuffle: write rand idx (the outcome of Math.random() < prob at
iteration idx) into every index of the active buffer. -/
def shuffle (u : Universe) (rand : Nat → Bool) : Option Universe :=
  ((List.range u.activeCells.length).foldl
      (fun ob idx => ob.bind fun b => fbs_set b idx (rand idx))
      (some u.activeCells)).map fun b =>
    u.setBufAt u.i b

/-- Universe.random: empty then shuffle. -/
def random (width height : Nat) (rand : Nat → Bool) : Option Universe :=
  (empty width height).bind fun u => u.shuffle rand

/-- Universe.clear: clear the active buffer. -/
def clear (u : Universe) : Universe :=
  u.setBufAt u.i (fbs_clear u.activeCells)

/-- Universe.set_cells: set each listed coordinate alive in the active
buffer; FixedBitSet.set panics when the linear index is out of range. -/
def set_cells (u : Universe) (cs : List (Nat × Nat)) : Option Universe :=
  (cs.foldl
      (fun ob p => ob.bind fun b => fbs_set b (u.get_index p.1 p.2) true)
      (some u.activeCells)).map fun b =>
    u.setBufAt u.i b

/-- Universe.insert_at: for every pattern cell (r, c), read the pattern bit
(a slice access, panicking out of range) and write it at the wrapped grid
position; the remainder by a zero dimension panics. -/
def insert_at (u : Universe) (row col : Nat) (img : List Bool)
    (width height : Nat) : Option Universe :=
  ((List.range height).foldl
      (fun ob r =>
        (List.range width).foldl
          (fun ob2 c =>
            ob2.bind fun b =>
              if r * width + c < img.length then
                if u.height = 0 ∨ u.width = 0 then none
                else
                  fbs_set b
                    (u.get_index ((row + r) % u.height) ((col + c) % u.width))
                    (img.getD (r * width + c) false)
              else none)
          ob)
      (some u.activeCells)).map fun b =>
    u.setBufAt u.i b

/-- The 5 x 4 space ship bit matrix from Universe.add_space_ship. -/
def space_ship_img : List Bool :=
  [false, true, false, false, true,
   true, false, false, false, false,
   true, false, false, false, true,
   true, true, true, true, false]

/-- Universe.add_space_ship. -/
def add_space_ship (u : Universe) (row col : Nat) : Option Universe :=
  u.insert_at row col space_ship_img 5 4

/-- The 13 x 13 pulsar bit matrix from Universe.add_pulsar. -/
def pulsar_img : List Bool :=
  [false, false, true, true, true, false, false, false, true, true, true, false, false,
   false, false, false, false, false, false, false, false, false, false, false, false, false,
   true, false, false, false, false, true, false, true, false, false, false, false, true,
   true, false, false, false, false, true, false, true, false, false, false, false, true,
   true, false, false, false, false, true, false, true, false, false, false, false, true,
   false, false, true, true, true, false, false, false, true, true, true, false, false,
   false, false, false, false, false, false, false, false, false, false, false, false, false,
   false, false, true, true, true, false, false, false, true, true, true, false, false,
   true, false, false, false, false, true, false, true, false, false, false, false, true,
   true, false, false, false, false, true, false, true, false, false, false, false, true,
   true, false, false, false, false, true, false, true, false, false, false, false, true,
   false, false, false, false, false, false, false, false, false, false, false, false, false,
   false, false, true, true, true, false, false, false, true, true, true, false, false]

/-- Universe.add_pulsar. -/
def add_pulsar (u : Universe) (row col : Nat) : Option Universe :=
  u.insert_at row col pulsar_img 13 13

/-- The 3 x 3 glider bit matrix from Universe.add_glider. -/
def glider_img : List Bool :=
  [false, true, false,
   false, false, true,
   true, true, true]

/-- Universe.add_glider. -/
def add_glider (u : Universe) (row col : Nat) : Option Universe :=
  u.insert_at row col glider_img 3 3

/-- Iterated tick: n successive calls to Universe.tick. -/
def tickN : Nat → Universe → Option Universe
  | 0, u => some u
  | n + 1, u => u.tick.bind (tickN n)

/-- Structural well-formedness: both buffers hold width * height bits.  Every
constructor establishes this and every operation preserves it. -/
def Wf (u : Universe) : Prop :=
  u.cells0.length = u.width * u.height ∧ u.cells1.length = u.width * u.height

instance (u : Universe) : Decidable u.Wf := by unfold Wf; infer_instance

end Universe

/-! ## Generic machinery about sequences of checked bit writes -/

/-- One checked write inside a loop, in the Option monad. -/
def writeStep (ob : Option (List Bool)) (p : Nat × Bool) : Option (List Bool) :=
  ob.bind fun b => fbs_set b p.1 p.2

/-- A sequence of checked writes. -/
def writeListO (ob : Option (List Bool)) (ws : List (Nat × Bool)) :
    Option (List Bool) :=
  ws.foldl writeStep ob

theorem writeListO_nil (ob : Option (List Bool)) : writeListO ob [] = ob := rfl

theorem writeListO_cons (ob : Option (List Bool)) (p : Nat × Bool)
    (ws : List (Nat × Bool)) :
    writeListO ob (p :: ws) = writeListO (writeStep ob p) ws := rfl

theorem writeListO_none (ws : List (Nat × Bool)) : writeListO none ws = none := by
  induction ws with
  | nil => rfl
  | cons p ws ih => simpa [writeListO_cons, writeStep] using ih

theorem writeListO_append (ob : Option (List Bool)) (ws1 ws2 : List (Nat × Bool)) :
    writeListO ob (ws1 ++ ws2) = writeListO (writeListO ob ws1) ws2 :=
  List.foldl_append _ _ _ _

theorem fbs_set_length {b b' : List Bool} {i : Nat} {v : Bool}
    (h : fbs_set b i v = some b') : b'.length = b.length := by
  unfold fbs_set at h
  split at h
  · cases h; simp
  · cases h

theorem fbs_set_lt {b b' : List Bool} {i : Nat} {v : Bool}
    (h : fbs_set b i v = some b') : i < b.length := by
  unfold fbs_set at h
  split at h
  · assumption
  · cases h

theorem writeListO_some_length {b b' : List Bool} {ws : List (Nat × Bool)}
    (h : writeListO (some b) ws = some b') : b'.length = b.length := by
  induction ws generalizing b with
  | nil => cases h; rfl
  | cons p ws ih =>
    rw [writeListO_cons] at h
    rcases hset : fbs_set b p.1 p.2 with _ | b1
    · rw [show writeStep (some b) p = none by simp [writeStep, hset],
        writeListO_none] at h
      cases h
    · rw [show writeStep (some b) p = some b1 by simp [writeStep, hset]] at h
      rw [ih h, fbs_set_length hset]

theorem writeListO_isSome {b : List Bool} {ws : List (Nat × Bool)}
    (h : ∀ p ∈ ws, p.1 < b.length) : ∃ b', writeListO (some b) ws = some b' := by
  induction ws generalizing b with
  | nil => exact ⟨b, rfl⟩
  | cons p ws ih =>
    have hp : p.1 < b.length := h p (List.mem_cons_self p ws)
    rw [writeListO_cons, show writeStep (some b) p = some (b.set p.1 p.2) by
      simp [writeStep, fbs_set, hp]]
    exact ih fun q hq => by
      rw [List.length_set]; exact h q (List.mem_cons_of_mem p hq)

theorem writeListO_getElem?_not_mem {b b' : List Bool} {ws : List (Nat × Bool)}
    {j : Nat} (h : writeListO (some b) ws = some b')
    (hj : ∀ p ∈ ws, p.1 ≠ j) : b'[j]? = b[j]? := by
  induction ws generalizing b with
  | nil => cases h; rfl
  | cons p ws ih =>
    rw [writeListO_cons] at h
    rcases hset : fbs_set b p.1 p.2 with _ | b1
    · rw [show writeStep (some b) p = none by simp [writeStep, hset],
        writeListO_none] at h
      cases h
    · rw [show writeStep (some b) p = some b1 by simp [writeStep, hset]] at h
      have hb1 : b1 = b.set p.1 p.2 := by
        unfold fbs_set at hset
        split at hset
        · cases hset; rfl
        · cases hset
      rw [ih h fun q hq => hj q (List.mem_cons_of_mem p hq), hb1,
        List.getElem?_set_ne (hj p (List.mem_cons_self p ws))]

theorem writeListO_getElem?_mem {b b' : List Bool} {ws : List (Nat × Bool)}
    {j : Nat} {v : Bool} (h : writeListO (some b) ws = some b')
    (hnd : (ws.map Prod.fst).Nodup) (hmem : (j, v) ∈ ws) : b'[j]? = some v := by
  induction ws generalizing b with
  | nil => cases hmem
  | cons p ws ih =>
    rw [writeListO_cons] at h
    rcases hset : fbs_set b p.1 p.2 with _ | b1
    · rw [show writeStep (some b) p = none by simp [writeStep, hset],
        writeListO_none] at h
      cases h
    · rw [show writeStep (some b) p = some b1 by simp [writeStep, hset]] at h
      have hb1 : b1 = b.set p.1 p.2 := by
        unfold fbs_set at hset
        split at hset
        · cases hset; rfl
        · cases hset
      rw [List.map_cons, List.nodup_cons] at hnd
      rcases List.mem_cons.mp hmem with heq | hmem'
      · subst heq
        have hnot : ∀ q ∈ ws, q.1 ≠ j := by
          intro q hq hqj
          apply hnd.1
          have hmm : q.1 ∈ ws.map Prod.fst := List.mem_map_of_mem Prod.fst hq
          simpa [hqj] using hmm
        rw [writeListO_getElem?_not_mem h hnot, hb1,
          List.getElem?_set_self (fbs_set_lt hset)]
      · exact ih h hnd.2 hmem'

/-- Congruence for foldl under pointwise equality of the step functions. -/
theorem foldl_congr_mem {α β : Type} {l : List α} {f g : β → α → β} {b : β}
    (h : ∀ acc, ∀ x ∈ l, f acc x = g acc x) : l.foldl f b = l.foldl g b := by
  induction l generalizing b with
  | nil => rfl
  | cons x l ih =>
    rw [List.foldl_cons, List.foldl_cons, h b x (List.mem_cons_self x l)]
    exact ih fun acc y hy => h acc y (List.mem_cons_of_mem x hy)

/-! ## Row-major traversal of a grid -/

/-- All (row, col) pairs of an H x W grid in row-major order. -/
def gridPairs (H W : Nat) : List (Nat × Nat) :=
  (List.range H).flatMap fun r => (List.range W).map fun c => (r, c)

theorem gridPairs_succ (H W : Nat) :
    gridPairs (H + 1) W = gridPairs H W ++ ((List.range W).map fun c => (H, c)) := by
  unfold gridPairs
  rw [List.range_succ, List.flatMap_append]
  simp

theorem mem_gridPairs {H W : Nat} {p : Nat × Nat} :
    p ∈ gridPairs H W ↔ p.1 < H ∧ p.2 < W := by
  unfold gridPairs
  constructor
  · intro h
    rcases List.mem_flatMap.mp h with ⟨r, hr, hp⟩
    rcases List.mem_map.mp hp with ⟨c, hc, hpc⟩
    subst hpc
    exact ⟨List.mem_range.mp hr, List.mem_range.mp hc⟩
  · intro ⟨h1, h2⟩
    exact List.mem_flatMap.mpr ⟨p.1, List.mem_range.mpr h1,
      List.mem_map.mpr ⟨p.2, List.mem_range.mpr h2, rfl⟩⟩

theorem gridPairs_nodup (H W : Nat) : (gridPairs H W).Nodup := by
  induction H with
  | zero => simp [gridPairs]
  | succ H ih =>
    rw [gridPairs_succ, List.nodup_append]
    refine ⟨ih, ?_, ?_⟩
    · exact (List.nodup_range W).map_on fun x _ y _ hxy => by
        simpa using congrArg Prod.snd hxy
    · intro p hp hp'
      rcases List.mem_map.mp hp' with ⟨c, _, hpc⟩
      have h1 := (mem_gridPairs.mp hp).1
      rw [← hpc] at h1
      exact absurd h1 (lt_irrefl H)

/-- The writes performed by a row-major double loop writing value V r c at
index F r c. -/
def gridWrites (H W : Nat) (F : Nat → Nat → Nat) (V : Nat → Nat → Bool) :
    List (Nat × Bool) :=
  (gridPairs H W).map fun p => (F p.1 p.2, V p.1 p.2)

theorem gridWrites_succ (H W : Nat) (F : Nat → Nat → Nat) (V : Nat → Nat → Bool) :
    gridWrites (H + 1) W F V
      = gridWrites H W F V ++ ((List.range W).map fun c => (F H c, V H c)) := by
  unfold gridWrites
  rw [gridPairs_succ, List.map_append, List.map_map]
  rfl

theorem nested_foldl_eq_writeListO (H W : Nat) (F : Nat → Nat → Nat)
    (V : Nat → Nat → Bool) (init : Option (List Bool)) :
    (List.range H).foldl
        (fun ob r =>
          (List.range W).foldl (fun ob2 c => writeStep ob2 (F r c, V r c)) ob)
        init
      = writeListO init (gridWrites H W F V) := by
  induction H generalizing init with
  | zero => rfl
  | succ H ih =>
    rw [List.range_succ, List.foldl_append, ih, gridWrites_succ,
      writeListO_append]
    simp only [List.foldl_cons, List.foldl_nil]
    unfold writeListO
    rw [List.foldl_map]

/-! ## Helper lemmas about Universe -/

namespace Universe

theorem bufAt_length {u : Universe} (hWf : u.Wf) (k : Fin 2) :
    (u.bufAt k).length = u.width * u.height := by
  unfold bufAt
  split
  · exact hWf.1
  · exact hWf.2

theorem setBufAt_width (u : Universe) (k : Fin 2) (b : List Bool) :
    (u.setBufAt k b).width = u.width := by
  unfold setBufAt
  split <;> rfl

theorem setBufAt_height (u : Universe) (k : Fin 2) (b : List Bool) :
    (u.setBufAt k b).height = u.height := by
  unfold setBufAt
  split <;> rfl

theorem setBufAt_i (u : Universe) (k : Fin 2) (b : List Bool) :
    (u.setBufAt k b).i = u.i := by
  unfold setBufAt
  split <;> rfl

theorem bufAt_setBufAt_self (u : Universe) (k : Fin 2) (b : List Bool) :
    (u.setBufAt k b).bufAt k = b := by
  unfold setBufAt bufAt
  by_cases h : k.val = 0 <;> simp [h]

theorem activeCells_setBufAt_active (u : Universe) (b : List Bool) :
    (u.setBufAt u.i b).activeCells = b := by
  unfold activeCells
  rw [setBufAt_i, bufAt_setBufAt_self]

theorem activeCells_setBuf_flip (u : Universe) (k : Fin 2) (b : List Bool) :
    ({ u.setBufAt k b with i := k } : Universe).activeCells = b := by
  unfold activeCells bufAt setBufAt
  by_cases h : k.val = 0 <;> simp [h]

theorem setBufAt_Wf {u : Universe} (hWf : u.Wf) (k : Fin 2) {b : List Bool}
    (hb : b.length = u.width * u.height) : (u.setBufAt k b).Wf := by
  unfold setBufAt Wf at *
  by_cases h : k.val = 0 <;> simp [h] <;> tauto

theorem otherI_ne : ∀ k : Fin 2, otherI k ≠ k := by decide

theorem rowmajor_lt {r c w h : Nat} (hr : r < h) (hc : c < w) :
    r * w + c < w * h :=
  calc r * w + c < r * w + w := by omega
    _ = (r + 1) * w := by ring
    _ ≤ h * w := Nat.mul_le_mul_right w hr
    _ = w * h := Nat.mul_comm h w

theorem rowmajor_inj {r1 c1 r2 c2 w : Nat} (hc1 : c1 < w) (hc2 : c2 < w)
    (heq : r1 * w + c1 = r2 * w + c2) : r1 = r2 ∧ c1 = c2 := by
  have hw : 0 < w := by omega
  have h1 : (r1 * w + c1) % w = c1 := by
    rw [Nat.mul_comm, Nat.mul_add_mod, Nat.mod_eq_of_lt hc1]
  have h2 : (r2 * w + c2) % w = c2 := by
    rw [Nat.mul_comm, Nat.mul_add_mod, Nat.mod_eq_of_lt hc2]
  have hcc : c1 = c2 := by rw [← h1, heq, h2]
  have hrr : r1 * w = r2 * w := by omega
  exact ⟨Nat.eq_of_mul_eq_mul_right hw hrr, hcc⟩

theorem readCell_congr {u1 u2 : Universe} (hw : u1.width = u2.width)
    (ha : u1.activeCells = u2.activeCells) (r c : Nat) :
    u1.readCell r c = u2.readCell r c := by
  simp only [readCell, get_index, fbs_contains, hw, ha]

theorem live_neighbor_count_congr {u1 u2 : Universe} (hw : u1.width = u2.width)
    (hh : u1.height = u2.height) (ha : u1.activeCells = u2.activeCells)
    (r c : Nat) : u1.live_neighbor_count r c = u2.live_neighbor_count r c := by
  simp only [live_neighbor_count, get_index, fbs_contains, hw, hh, ha]

/-- The write index map of the tick loop is injective on grid pairs. -/
theorem tick_fst_nodup (u : Universe) (V : Nat → Nat → Bool) :
    ((gridWrites u.height u.width (fun r c => u.get_index r c) V).map
      Prod.fst).Nodup := by
  unfold gridWrites
  rw [List.map_map]
  refine (gridPairs_nodup u.height u.width).map_on ?_
  intro x hx y hy hxy
  have hx2 := (mem_gridPairs.mp hx).2
  have hy2 := (mem_gridPairs.mp hy).2
  have := rowmajor_inj hx2 hy2 hxy
  exact Prod.ext this.1 this.2

/-- Full characterization of a successful tick on a well-formed universe. -/
theorem tick_spec {u : Universe} (hWf : u.Wf) :
    ∃ v, u.tick = some v ∧ v.width = u.width ∧ v.height = u.height ∧
      v.i = otherI u.i ∧ v.Wf ∧
      v.activeCells.length = u.width * u.height ∧
      ∀ row col, row < u.height → col < u.width →
        v.activeCells[row * u.width + col]? =
          some (next_cell (u.readCell row col)
            (u.live_neighbor_count row col)) := by
  have htick : u.tick
      = (writeListO (some (u.bufAt (otherI u.i)))
          (gridWrites u.height u.width (fun r c => u.get_index r c)
            (fun r c => next_cell (fbs_contains u.activeCells (u.get_index r c))
              (u.live_neighbor_count r c)))).map
        (fun b => { u.setBufAt (otherI u.i) b with i := otherI u.i }) := by
    rw [← nested_foldl_eq_writeListO]
    rfl
  have hlen : (u.bufAt (otherI u.i)).length = u.width * u.height :=
    bufAt_length hWf _
  have hin : ∀ p ∈ gridWrites u.height u.width (fun r c => u.get_index r c)
      (fun r c => next_cell (fbs_contains u.activeCells (u.get_index r c))
        (u.live_neighbor_count r c)),
      p.1 < (u.bufAt (otherI u.i)).length := by
    intro p hp
    rcases List.mem_map.mp hp with ⟨q, hq, hpq⟩
    have h1 := (mem_gridPairs.mp hq).1
    have h2 := (mem_gridPairs.mp hq).2
    rw [← hpq, hlen]
    exact rowmajor_lt h1 h2
  obtain ⟨b', hb'⟩ := writeListO_isSome hin
  have hblen : b'.length = u.width * u.height := by
    rw [writeListO_some_length hb', hlen]
  refine ⟨{ u.setBufAt (otherI u.i) b' with i := otherI u.i }, ?_,
    setBufAt_width u _ b', setBufAt_height u _ b', rfl, ?_, ?_, ?_⟩
  · rw [htick, hb']
    rfl
  · show Universe.Wf _
    have := setBufAt_Wf hWf (otherI u.i) hblen
    unfold Wf at this ⊢
    simpa [setBufAt_width, setBufAt_height] using this
  · rw [activeCells_setBuf_flip]
    exact hblen
  · intro row col hr hc
    rw [activeCells_setBuf_flip]
    refine writeListO_getElem?_mem hb' (tick_fst_nodup u _) ?_
    exact List.mem_map.mpr ⟨(row, col), mem_gridPairs.mpr ⟨hr, hc⟩, rfl⟩

end Universe

/-! ## Generic preservation lemmas for the Option-valued loops -/

theorem foldl_none_of {α : Type} {f : Option (List Bool) → α → Option (List Bool)}
    (hf : ∀ a, f none a = none) (l : List α) : l.foldl f none = none := by
  induction l with
  | nil => rfl
  | cons a l ih => rw [List.foldl_cons, hf a]; exact ih

theorem preserve_chain {α : Type} {f : Option (List Bool) → α → Option (List Bool)}
    (hf_none : ∀ a, f none a = none)
    (hf_some : ∀ b a b', f (some b) a = some b' → b'.length = b.length)
    (l : List α) : ∀ b b', l.foldl f (some b) = some b' → b'.length = b.length := by
  induction l with
  | nil => intro b b' h; cases h; rfl
  | cons a l ih =>
    intro b b' h
    rw [List.foldl_cons] at h
    rcases hfa : f (some b) a with _ | b1
    · rw [hfa, foldl_none_of hf_none] at h
      cases h
    · rw [hfa] at h
      rw [ih b1 b' h, hf_some b a b1 hfa]

namespace Universe

/-! ## Characterizations of the individual operations -/

theorem getD_replicate_false (n j : Nat) :
    (List.replicate n false).getD j false = false := by
  rw [List.getD_eq_getElem?_getD, List.getElem?_replicate]
  split <;> rfl

theorem new_cells_eq (w h : Nat) :
    new_cells w h = if w * h < u32Bound
      then some (List.replicate (w * h) false) else none := rfl

theorem new_cells_isSome_iff (w h : Nat) :
    (new_cells w h).isSome = true ↔ w * h < u32Bound := by
  rw [new_cells_eq]
  split <;> simp_all

theorem empty_eq (w h : Nat) :
    empty w h = if hlt : w * h < u32Bound
      then some ⟨w, h, List.replicate (w * h) false,
        List.replicate (w * h) false, 0⟩
      else none := by
  unfold empty
  rw [new_cells_eq]
  split <;> simp_all [Option.bind, Option.map]

theorem empty_spec {w h : Nat} {u : Universe} (he : empty w h = some u) :
    u = ⟨w, h, List.replicate (w * h) false, List.replicate (w * h) false, 0⟩ := by
  rw [empty_eq] at he
  split at he
  · exact (Option.some.injEq _ _ ▸ he).symm
  · cases he

theorem empty_isSome_iff (w h : Nat) :
    (empty w h).isSome = true ↔ w * h < u32Bound := by
  rw [empty_eq]
  split <;> simp_all

theorem empty_Wf {w h : Nat} {u : Universe} (he : empty w h = some u) : u.Wf := by
  rw [empty_spec he]
  constructor <;> simp [Wf]

theorem set_width_eq (u : Universe) (w2 : Nat) :
    u.set_width w2 = if hlt : w2 * u.height < u32Bound
      then some { u with
              width := w2,
              cells0 := List.replicate (w2 * u.height) false,
              cells1 := List.replicate (w2 * u.height) false }
      else none := by
  unfold set_width
  rw [new_cells_eq]
  split <;> simp_all [Option.bind, Option.map]

theorem set_height_eq (u : Universe) (h2 : Nat) :
    u.set_height h2 = if hlt : u.width * h2 < u32Bound
      then some { u with
              height := h2,
              cells0 := List.replicate (u.width * h2) false,
              cells1 := List.replicate (u.width * h2) false }
      else none := by
  unfold set_height
  rw [new_cells_eq]
  split <;> simp_all [Option.bind, Option.map]

theorem set_width_spec {u v : Universe} {w2 : Nat} (h : u.set_width w2 = some v) :
    v.width = w2 ∧ v.height = u.height ∧ v.i = u.i ∧
      v.cells0 = List.replicate (w2 * u.height) false ∧
      v.cells1 = List.replicate (w2 * u.height) false := by
  rw [set_width_eq] at h
  split at h
  · cases h; exact ⟨rfl, rfl, rfl, rfl, rfl⟩
  · cases h

theorem set_height_spec {u v : Universe} {h2 : Nat} (h : u.set_height h2 = some v) :
    v.width = u.width ∧ v.height = h2 ∧ v.i = u.i ∧
      v.cells0 = List.replicate (u.width * h2) false ∧
      v.cells1 = List.replicate (u.width * h2) false := by
  rw [set_height_eq] at h
  split at h
  · cases h; exact ⟨rfl, rfl, rfl, rfl, rfl⟩
  · cases h

theorem bufAt_cases (u : Universe) (k : Fin 2) :
    u.bufAt k = u.cells0 ∨ u.bufAt k = u.cells1 := by
  unfold bufAt
  split
  · exact Or.inl rfl
  · exact Or.inr rfl

theorem set_width_Wf {u v : Universe} {w2 : Nat} (h : u.set_width w2 = some v) :
    v.Wf := by
  obtain ⟨h1, h2, _, h4, h5⟩ := set_width_spec h
  unfold Wf
  rw [h1, h2, h4, h5]
  simp

theorem set_height_Wf {u v : Universe} {h2 : Nat} (h : u.set_height h2 = some v) :
    v.Wf := by
  obtain ⟨h1, hh2, _, h4, h5⟩ := set_height_spec h
  unfold Wf
  rw [h1, hh2, h4, h5]
  simp

theorem toggle_cell_eq (u : Universe) (row col : Nat) :
    u.toggle_cell row col
      = if u.get_index row col < u.activeCells.length
        then some (u.setBufAt u.i (u.activeCells.set (u.get_index row col)
          (!(u.activeCells.getD (u.get_index row col) false))))
        else none := by
  unfold toggle_cell fbs_toggle
  split <;> simp [Option.map]

theorem toggle_cell_spec {u v : Universe} {row col : Nat}
    (h : u.toggle_cell row col = some v) :
    u.get_index row col < u.activeCells.length ∧
      v.width = u.width ∧ v.height = u.height ∧ v.i = u.i ∧
      v.activeCells = u.activeCells.set (u.get_index row col)
        (!(u.activeCells.getD (u.get_index row col) false)) := by
  rw [toggle_cell_eq] at h
  split at h
  · cases h
    refine ⟨by assumption, setBufAt_width u _ _, setBufAt_height u _ _,
      setBufAt_i u _ _, ?_⟩
    exact activeCells_setBufAt_active u _
  · cases h

end Universe

namespace Universe

theorem activeCells_length {u : Universe} (hWf : u.Wf) :
    u.activeCells.length = u.width * u.height := bufAt_length hWf u.i

theorem toggle_cell_Wf {u v : Universe} {row col : Nat} (hWf : u.Wf)
    (h : u.toggle_cell row col = some v) : v.Wf := by
  rw [toggle_cell_eq] at h
  split at h
  · cases h
    refine setBufAt_Wf hWf u.i ?_
    rw [List.length_set]
    exact activeCells_length hWf
  · cases h

theorem set_cells_eq (u : Universe) (cs : List (Nat × Nat)) :
    u.set_cells cs
      = (writeListO (some u.activeCells)
          (cs.map fun p => (u.get_index p.1 p.2, true))).map fun b =>
        u.setBufAt u.i b := by
  unfold set_cells writeListO
  rw [List.foldl_map]
  rfl

theorem set_cells_Wf {u v : Universe} {cs : List (Nat × Nat)} (hWf : u.Wf)
    (h : u.set_cells cs = some v) : v.Wf := by
  rw [set_cells_eq] at h
  obtain ⟨b', hb', hv⟩ := Option.map_eq_some'.mp h
  rw [← hv]
  refine setBufAt_Wf hWf u.i ?_
  rw [writeListO_some_length hb']
  exact activeCells_length hWf

theorem shuffle_eq (u : Universe) (rand : Nat → Bool) :
    u.shuffle rand
      = (writeListO (some u.activeCells)
          ((List.range u.activeCells.length).map fun idx =>
            (idx, rand idx))).map fun b =>
        u.setBufAt u.i b := by
  unfold shuffle writeListO
  rw [List.foldl_map]
  rfl

theorem shuffle_spec (u : Universe) (rand : Nat → Bool) :
    ∃ v, u.shuffle rand = some v ∧ v.width = u.width ∧ v.height = u.height ∧
      v.i = u.i ∧ v.activeCells.length = u.activeCells.length := by
  have hin : ∀ p ∈ (List.range u.activeCells.length).map
      (fun idx => ((idx, rand idx) : Nat × Bool)), p.1 < u.activeCells.length := by
    intro p hp
    rcases List.mem_map.mp hp with ⟨idx, hidx, hpe⟩
    rw [← hpe]
    exact List.mem_range.mp hidx
  obtain ⟨b', hb'⟩ := writeListO_isSome hin
  rw [shuffle_eq, hb']
  refine ⟨_, rfl, setBufAt_width u _ _, setBufAt_height u _ _, setBufAt_i u _ _, ?_⟩
  rw [activeCells_setBufAt_active]
  exact writeListO_some_length hb'

theorem shuffle_Wf {u v : Universe} {rand : Nat → Bool} (hWf : u.Wf)
    (h : u.shuffle rand = some v) : v.Wf := by
  rw [shuffle_eq] at h
  obtain ⟨b', hb', hv⟩ := Option.map_eq_some'.mp h
  rw [← hv]
  refine setBufAt_Wf hWf u.i ?_
  rw [writeListO_some_length hb']
  exact activeCells_length hWf

theorem random_Wf {w h : Nat} {rand : Nat → Bool} {u : Universe}
    (hr : random w h rand = some u) : u.Wf := by
  unfold random at hr
  obtain ⟨u0, he, hs⟩ := Option.bind_eq_some.mp hr
  exact shuffle_Wf (empty_Wf he) hs

theorem clear_spec (u : Universe) :
    (u.clear).width = u.width ∧ (u.clear).height = u.height ∧
      (u.clear).i = u.i ∧
      (u.clear).activeCells = List.replicate u.activeCells.length false := by
  unfold clear fbs_clear
  exact ⟨setBufAt_width u _ _, setBufAt_height u _ _, setBufAt_i u _ _,
    activeCells_setBufAt_active u _⟩

theorem clear_Wf {u : Universe} (hWf : u.Wf) : (u.clear).Wf := by
  unfold clear fbs_clear
  refine setBufAt_Wf hWf u.i ?_
  rw [List.length_replicate]
  exact activeCells_length hWf

theorem tick_Wf {u v : Universe} (hWf : u.Wf) (h : u.tick = some v) : v.Wf := by
  obtain ⟨v', hv', _, _, _, hWfv, _, _⟩ := tick_spec hWf
  rw [h] at hv'
  cases hv'
  exact hWfv

theorem insert_at_Wf {u v : Universe} {row col : Nat} {img : List Bool}
    {pw ph : Nat} (hWf : u.Wf) (h : u.insert_at row col img pw ph = some v) :
    v.Wf := by
  unfold insert_at at h
  obtain ⟨b', hb', hv⟩ := Option.map_eq_some'.mp h
  rw [← hv]
  refine setBufAt_Wf hWf u.i ?_
  rw [preserve_chain ?_ ?_ (List.range ph) u.activeCells b' hb']
  · exact activeCells_length hWf
  · intro a
    exact foldl_none_of (fun c => rfl) (List.range pw)
  · intro b a b' hba
    refine preserve_chain (fun c => rfl) ?_ (List.range pw) b b' hba
    intro b2 c b2' hb2
    simp only [Option.bind] at hb2
    split at hb2
    · split at hb2
      · cases hb2
      · exact fbs_set_length hb2
    · cases hb2

end Universe

namespace Universe

theorem add_mod_window_inj {a d1 d2 n : Nat} (h1 : d1 < n) (h2 : d2 < n)
    (heq : (a + d1) % n = (a + d2) % n) : d1 = d2 := by
  have hmm : d1 % n = d2 % n := Nat.ModEq.add_left_cancel' a heq
  rwa [Nat.mod_eq_of_lt h1, Nat.mod_eq_of_lt h2] at hmm

theorem readCell_setBufAt_active (u : Universe) (b : List Bool) (r c : Nat) :
    (u.setBufAt u.i b).readCell r c = b.getD (r * u.width + c) false := by
  unfold readCell fbs_contains get_index
  rw [activeCells_setBufAt_active, setBufAt_width]

/-- Full characterization of insert_at when the pattern fits inside the grid:
every addressed cell receives exactly the pattern bit and every other cell is
untouched. -/
theorem insert_at_spec {u : Universe} {row col : Nat} {img : List Bool}
    {pw ph : Nat} (hWf : u.Wf) (hw : 1 ≤ u.width) (hh : 1 ≤ u.height)
    (hpw : pw ≤ u.width) (hph : ph ≤ u.height) (himg : pw * ph ≤ img.length) :
    ∃ v, u.insert_at row col img pw ph = some v ∧ v.width = u.width ∧
      v.height = u.height ∧ v.i = u.i ∧
      (∀ r c, r < ph → c < pw →
        v.readCell ((row + r) % u.height) ((col + c) % u.width)
          = img.getD (r * pw + c) false) ∧
      (∀ r' c', r' < u.height → c' < u.width →
        (¬ ∃ r c, r < ph ∧ c < pw ∧ r' = (row + r) % u.height ∧
          c' = (col + c) % u.width) →
        v.readCell r' c' = u.readCell r' c') := by
  have hinsert : u.insert_at row col img pw ph
      = (writeListO (some u.activeCells)
          (gridWrites ph pw
            (fun r c => u.get_index ((row + r) % u.height) ((col + c) % u.width))
            (fun r c => img.getD (r * pw + c) false))).map fun b =>
        u.setBufAt u.i b := by
    unfold insert_at
    rw [← nested_foldl_eq_writeListO]
    have hcong : ∀ (init : Option (List Bool)),
        (List.range ph).foldl
          (fun ob r =>
            (List.range pw).foldl
              (fun ob2 c =>
                ob2.bind fun b =>
                  if r * pw + c < img.length then
                    if u.height = 0 ∨ u.width = 0 then none
                    else
                      fbs_set b
                        (u.get_index ((row + r) % u.height)
                          ((col + c) % u.width))
                        (img.getD (r * pw + c) false)
                  else none)
              ob)
          init
        = (List.range ph).foldl
          (fun ob r =>
            (List.range pw).foldl
              (fun ob2 c =>
                writeStep ob2
                  (u.get_index ((row + r) % u.height) ((col + c) % u.width),
                    img.getD (r * pw + c) false))
              ob)
          init := by
      intro init
      apply foldl_congr_mem
      intro acc r hr
      apply foldl_congr_mem
      intro acc2 c hc
      have hrb := List.mem_range.mp hr
      have hcb := List.mem_range.mp hc
      have hbound : r * pw + c < img.length :=
        lt_of_lt_of_le (rowmajor_lt hrb hcb) himg
      have hzero : ¬ (u.height = 0 ∨ u.width = 0) := by omega
      unfold writeStep
      congr 1
      funext b
      rw [if_pos hbound, if_neg hzero]
    rw [hcong]
  have hA : u.activeCells.length = u.width * u.height := activeCells_length hWf
  have hin : ∀ p ∈ gridWrites ph pw
      (fun r c => u.get_index ((row + r) % u.height) ((col + c) % u.width))
      (fun r c => img.getD (r * pw + c) false),
      p.1 < u.activeCells.length := by
    intro p hp
    rcases List.mem_map.mp hp with ⟨q, hq, hpq⟩
    rw [← hpq, hA]
    exact rowmajor_lt (Nat.mod_lt _ (by omega)) (Nat.mod_lt _ (by omega))
  obtain ⟨b', hb'⟩ := writeListO_isSome hin
  have hnd : ((gridWrites ph pw
      (fun r c => u.get_index ((row + r) % u.height) ((col + c) % u.width))
      (fun r c => img.getD (r * pw + c) false)).map Prod.fst).Nodup := by
    unfold gridWrites
    rw [List.map_map]
    refine (gridPairs_nodup ph pw).map_on ?_
    intro x hx y hy hxy
    have hx1 := (mem_gridPairs.mp hx).1
    have hx2 := (mem_gridPairs.mp hx).2
    have hy1 := (mem_gridPairs.mp hy).1
    have hy2 := (mem_gridPairs.mp hy).2
    have := rowmajor_inj (Nat.mod_lt _ (by omega)) (Nat.mod_lt _ (by omega)) hxy
    have hr : x.1 = y.1 :=
      add_mod_window_inj (lt_of_lt_of_le hx1 hph) (lt_of_lt_of_le hy1 hph) this.1
    have hc : x.2 = y.2 :=
      add_mod_window_inj (lt_of_lt_of_le hx2 hpw) (lt_of_lt_of_le hy2 hpw) this.2
    exact Prod.ext hr hc
  refine ⟨u.setBufAt u.i b', by rw [hinsert, hb']; rfl, setBufAt_width u _ _,
    setBufAt_height u _ _, setBufAt_i u _ _, ?_, ?_⟩
  · intro r c hr hc
    rw [readCell_setBufAt_active, List.getD_eq_getElem?_getD]
    have hmem : ((u.get_index ((row + r) % u.height) ((col + c) % u.width),
        img.getD (r * pw + c) false) : Nat × Bool) ∈ gridWrites ph pw
        (fun r c => u.get_index ((row + r) % u.height) ((col + c) % u.width))
        (fun r c => img.getD (r * pw + c) false) :=
      List.mem_map.mpr ⟨(r, c), mem_gridPairs.mpr ⟨hr, hc⟩, rfl⟩
    rw [show ((row + r) % u.height) * u.width + (col + c) % u.width
        = u.get_index ((row + r) % u.height) ((col + c) % u.width) from rfl]
    rw [writeListO_getElem?_mem hb' hnd hmem]
    rfl
  · intro r' c' hr' hc' hnot
    rw [readCell_setBufAt_active, List.getD_eq_getElem?_getD]
    have hnotmem : ∀ p ∈ gridWrites ph pw
        (fun r c => u.get_index ((row + r) % u.height) ((col + c) % u.width))
        (fun r c => img.getD (r * pw + c) false),
        p.1 ≠ r' * u.width + c' := by
      intro p hp hpj
      rcases List.mem_map.mp hp with ⟨q, hq, hpq⟩
      have hq1 := (mem_gridPairs.mp hq).1
      have hq2 := (mem_gridPairs.mp hq).2
      rw [← hpq] at hpj
      have := rowmajor_inj (Nat.mod_lt _ (by omega)) hc' hpj
      exact hnot ⟨q.1, q.2, hq1, hq2, this.1.symm, this.2.symm⟩
    rw [writeListO_getElem?_not_mem hb' hnotmem,
      show u.readCell r' c' = u.activeCells.getD (r' * u.width + c') false
        from rfl,
      List.getD_eq_getElem?_getD]

end Universe

/-! ## Concrete fixtures -/

/-- Horizontal 3-cell blinker on a 5 x 5 grid, row 2, columns 1 to 3. -/
def blinkH : List Bool :=
  (((List.replicate 25 false).set 11 true).set 12 true).set 13 true

/-- Vertical 3-cell blinker on a 5 x 5 grid, column 2, rows 1 to 3. -/
def blinkV : List Bool :=
  (((List.replicate 25 false).set 7 true).set 12 true).set 17 true

/-- A 5 x 5 universe holding the horizontal blinker, fresh from set_cells. -/
def blinkerU : Universe := ⟨5, 5, blinkH, List.replicate 25 false, 0⟩

/-- The blinker universe after one tick. -/
def blinkerB1 : Universe := ⟨5, 5, blinkH, blinkV, 1⟩

/-- The blinker universe after two ticks. -/
def blinkerB2 : Universe := ⟨5, 5, blinkH, blinkV, 0⟩

/-- Same observable state as blinkerU but with a fully live inactive buffer. -/
def blinkerUAlt : Universe := ⟨5, 5, blinkH, List.replicate 25 true, 0⟩

/-- A 4 x 4 universe whose only live cells are the four corners. -/
def cornersU : Universe :=
  ⟨4, 4, ((((List.replicate 16 false).set 0 true).set 3 true).set 12
    true).set 15 true, List.replicate 16 false, 0⟩

/-- The 1 x 1 universe whose single cell is alive. -/
def oneLiveU : Universe := ⟨1, 1, [true], [false], 0⟩

/-- An all-dead 2 x 2 universe, the value of empty 2 2. -/
def u22 : Universe := ⟨2, 2, List.replicate 4 false, List.replicate 4 false, 0⟩

/-- An all-dead 8 x 8 universe, the value of empty 8 8. -/
def u88 : Universe := ⟨8, 8, List.replicate 64 false, List.replicate 64 false, 0⟩

/-! ## The tick rule in the form the specification states it -/

theorem next_cell_classic (cell : Bool) (n : Nat) :
    Universe.next_cell cell n
      = if cell then
          (if n < 2 then false else if n ≤ 3 then true else false)
        else (if n = 3 then true else false) := by
  cases cell <;> unfold Universe.next_cell <;> split_ifs <;> simp_all <;> omega

/-! ## The neighbor positions as the specification describes them -/

/-- Modelled from the spec: the eight toroidally wrapped neighbor positions
of (row, col) - north, south, east, west and the four diagonals - where
wrapping means row height - 1 neighbors row 0 and vice versa, symmetric for
columns. -/
def spec_neighbor_positions (height width row col : Nat) : List (Nat × Nat) :=
  let north := if row = 0 then height - 1 else row - 1
  let south := if row = height - 1 then 0 else row + 1
  let west := if col = 0 then width - 1 else col - 1
  let east := if col = width - 1 then 0 else col + 1
  [(north, west), (north, col), (north, east),
   (row, west), (row, east),
   (south, west), (south, col), (south, east)]

/-- Modelled from the spec: the number of live cells among the eight wrapped
neighbor positions, counting no position twice and never the cell itself,
the reading of live_neighbor_count the claim states. -/
def spec_distinct_live_neighbors (u : Universe) (row col : Nat) : Nat :=
  (((spec_neighbor_positions u.height u.width row col).dedup.filter
      (fun p => decide (p ≠ (row, col)))).filter
    (fun p => u.readCell p.1 p.2)).length

theorem count_eq_countP_aux (A : List Bool) (w north south west east row col : Nat) :
    (fbs_contains A (north * w + west)).toNat
        + (fbs_contains A (north * w + col)).toNat
        + (fbs_contains A (north * w + east)).toNat
        + (fbs_contains A (row * w + west)).toNat
        + (fbs_contains A (row * w + east)).toNat
        + (fbs_contains A (south * w + west)).toNat
        + (fbs_contains A (south * w + col)).toNat
        + (fbs_contains A (south * w + east)).toNat
      = ([(north, west), (north, col), (north, east),
          (row, west), (row, east),
          (south, west), (south, col), (south, east)] : List (Nat × Nat)).countP
          (fun p => fbs_contains A (p.1 * w + p.2)) := by
  simp only [List.countP_cons, List.countP_nil]
  cases fbs_contains A (north * w + west) <;>
    cases fbs_contains A (north * w + col) <;>
    cases fbs_contains A (north * w + east) <;>
    cases fbs_contains A (row * w + west) <;>
    cases fbs_contains A (row * w + east) <;>
    cases fbs_contains A (south * w + west) <;>
    cases fbs_contains A (south * w + col) <;>
    cases fbs_contains A (south * w + east) <;>
    rfl

theorem neighbor_nodup_aux {N S W E row col : Nat} (hN : N ≠ row) (hS : S ≠ row)
    (hNS : N ≠ S) (hW : W ≠ col) (hE : E ≠ col) (hWE : W ≠ E) :
    (([(N, W), (N, col), (N, E), (row, W), (row, E), (S, W), (S, col),
        (S, E)] : List (Nat × Nat)).Nodup) ∧
      ((row, col) ∉ ([(N, W), (N, col), (N, E), (row, W), (row, E), (S, W),
        (S, col), (S, E)] : List (Nat × Nat))) := by
  constructor
  · simp only [List.nodup_cons, List.mem_cons, List.not_mem_nil, or_false,
      Prod.mk.injEq, not_or, List.nodup_nil, and_true]
    refine ⟨⟨?_, ?_, ?_, ?_, ?_, ?_, ?_⟩, ⟨?_, ?_, ?_, ?_, ?_, ?_⟩,
      ⟨?_, ?_, ?_, ?_, ?_⟩, ⟨?_, ?_, ?_, ?_⟩, ⟨?_, ?_, ?_⟩, ⟨?_, ?_⟩, ?_⟩ <;>
      tauto
  · simp only [List.mem_cons, List.not_mem_nil, or_false, Prod.mk.injEq,
      not_or]
    refine ⟨?_, ?_, ?_, ?_, ?_, ?_, ?_, ?_⟩ <;> tauto

/-! ## Claim C3 -/

/-- Claim C3, amended: for every well-formed grid with width and height at
least 3 and every in-range coordinate, live_neighbor_count returns a value
in [0, 8] equal to the number of live cells among the eight toroidally
wrapped neighbor positions, which are pairwise distinct and never include
the cell itself; on grids with a dimension below 3 the eight lookups
revisit wrapped positions, so a cell can be counted more than once and the
cell itself can be counted. -/
theorem live_neighbor_count_wrapped (u : Universe) (row col : Nat)
    (hh : 3 ≤ u.height) (hw : 3 ≤ u.width) (hr : row < u.height)
    (hc : col < u.width) :
    u.live_neighbor_count row col ≤ 8 ∧
    (spec_neighbor_positions u.height u.width row col).Nodup ∧
    (row, col) ∉ spec_neighbor_positions u.height u.width row col ∧
    u.live_neighbor_count row col
      = (spec_neighbor_positions u.height u.width row col).countP
          (fun p => u.readCell p.1 p.2) := by
  have hN : (if row = 0 then u.height - 1 else row - 1) ≠ row := by
    split_ifs <;> omega
  have hS : (if row = u.height - 1 then 0 else row + 1) ≠ row := by
    split_ifs <;> omega
  have hNS : (if row = 0 then u.height - 1 else row - 1)
      ≠ (if row = u.height - 1 then 0 else row + 1) := by
    split_ifs <;> omega
  have hW : (if col = 0 then u.width - 1 else col - 1) ≠ col := by
    split_ifs <;> omega
  have hE : (if col = u.width - 1 then 0 else col + 1) ≠ col := by
    split_ifs <;> omega
  have hWE : (if col = 0 then u.width - 1 else col - 1)
      ≠ (if col = u.width - 1 then 0 else col + 1) := by
    split_ifs <;> omega
  have hnd := neighbor_nodup_aux hN hS hNS hW hE hWE
  have hcount : u.live_neighbor_count row col
      = (spec_neighbor_positions u.height u.width row col).countP
          (fun p => u.readCell p.1 p.2) :=
    count_eq_countP_aux u.activeCells u.width _ _ _ _ row col
  refine ⟨?_, hnd.1, hnd.2, hcount⟩
  rw [hcount]
  refine le_trans (List.countP_le_length _) ?_
  simp [spec_neighbor_positions]

/-- Claim C3, shown false as stated: on the 1 x 1 grid whose single cell is
alive, live_neighbor_count(0, 0) is 8, while the number of live cells among
the wrapped neighbor positions counted without repetition and without the
cell itself is 0. -/
theorem live_neighbor_count_counterexample :
    oneLiveU.live_neighbor_count 0 0 = 8 ∧
    spec_distinct_live_neighbors oneLiveU 0 0 = 0 ∧
    oneLiveU.live_neighbor_count 0 0
      ≠ spec_distinct_live_neighbors oneLiveU 0 0 := by decide

/-- Claim C3 witness: on the 4 x 4 grid with the four corners alive the
count at (0, 0) is 3 and the amended statement holds there. -/
theorem live_neighbor_count_wrapped_witness :
    cornersU.live_neighbor_count 0 0 = 3 ∧
    (cornersU.live_neighbor_count 0 0 ≤ 8 ∧
      (spec_neighbor_positions cornersU.height cornersU.width 0 0).Nodup ∧
      (0, 0) ∉ spec_neighbor_positions cornersU.height cornersU.width 0 0 ∧
      cornersU.live_neighbor_count 0 0
        = (spec_neighbor_positions cornersU.height cornersU.width 0 0).countP
            (fun p => cornersU.readCell p.1 p.2)) :=
  ⟨by decide, live_neighbor_count_wrapped cornersU 0 0 (by decide) (by decide)
    (by decide) (by decide)⟩

/-! ## Claim C1 -/

/-- Claim C1 (confirmed): after one tick, the state of every cell of the new
active buffer equals the classic rule applied to the pre-tick cell state and
the pre-tick live neighbor count: alive with fewer than 2 dies, alive with 2
or 3 stays alive, alive with more than 3 dies, dead with exactly 3 becomes
alive, any other dead cell stays dead. -/
theorem tick_applies_classic_rule (u : Universe) (hWf : u.Wf)
    (hw : 1 ≤ u.width) (hh : 1 ≤ u.height) (row col : Nat)
    (hr : row < u.height) (hc : col < u.width) :
    ∃ v, u.tick = some v ∧
      v.readCell row col
        = (if u.readCell row col then
            (if u.live_neighbor_count row col < 2 then false
             else if u.live_neighbor_count row col ≤ 3 then true
             else false)
           else (if u.live_neighbor_count row col = 3 then true
             else false)) := by
  obtain ⟨v, htick, hwidth, hheight, hi, hWfv, hlen, hcell⟩ :=
    Universe.tick_spec hWf
  refine ⟨v, htick, ?_⟩
  have h1 := hcell row col hr hc
  have h2 : v.readCell row col
      = v.activeCells.getD (row * u.width + col) false := by
    show fbs_contains v.activeCells (v.get_index row col) = _
    unfold fbs_contains Universe.get_index
    rw [hwidth]
  rw [h2, List.getD_eq_getElem?_getD, h1]
  show Universe.next_cell (u.readCell row col)
    (u.live_neighbor_count row col) = _
  rw [next_cell_classic]

/-- Claim C1 witness: the rule instance at cell (1, 2) of the blinker. -/
theorem tick_applies_classic_rule_witness :
    ∃ v, blinkerU.tick = some v ∧
      v.readCell 1 2
        = (if blinkerU.readCell 1 2 then
            (if blinkerU.live_neighbor_count 1 2 < 2 then false
             else if blinkerU.live_neighbor_count 1 2 ≤ 3 then true
             else false)
           else (if blinkerU.live_neighbor_count 1 2 = 3 then true
             else false)) :=
  tick_applies_classic_rule blinkerU (by decide) (by decide) (by decide) 1 2
    (by decide) (by decide)

/-! ## Two universes agreeing on the active buffer tick alike -/

theorem tick_active_agree {u1 u2 : Universe} (h1 : u1.Wf) (h2 : u2.Wf)
    (hw : u1.width = u2.width) (hh : u1.height = u2.height)
    (ha : u1.activeCells = u2.activeCells) :
    ∃ v1 v2, u1.tick = some v1 ∧ u2.tick = some v2 ∧
      v1.activeCells = v2.activeCells ∧ v1.width = v2.width ∧
      v1.height = v2.height := by
  obtain ⟨v1, ht1, hw1, hh1, hi1, hWf1, hlen1, hc1⟩ := Universe.tick_spec h1
  obtain ⟨v2, ht2, hw2, hh2, hi2, hWf2, hlen2, hc2⟩ := Universe.tick_spec h2
  refine ⟨v1, v2, ht1, ht2, ?_, by rw [hw1, hw2, hw], by rw [hh1, hh2, hh]⟩
  apply List.ext_getElem?
  intro n
  by_cases hn : n < u1.width * u1.height
  · have hwpos : 0 < u1.width := by
      rcases Nat.eq_zero_or_pos u1.width with h0 | hpos
      · rw [h0, Nat.zero_mul] at hn
        omega
      · exact hpos
    have hcol : n % u1.width < u1.width := Nat.mod_lt _ hwpos
    have hn' : n < u1.height * u1.width := by
      rw [Nat.mul_comm] at hn
      exact hn
    have hrow : n / u1.width < u1.height :=
      (Nat.div_lt_iff_lt_mul hwpos).mpr hn'
    have hdecomp : (n / u1.width) * u1.width + n % u1.width = n := by
      rw [Nat.mul_comm]
      exact Nat.div_add_mod n u1.width
    rw [← hdecomp, hc1 _ _ hrow hcol]
    have hc2' := hc2 (n / u1.width) (n % u1.width)
      (by rw [← hh]; exact hrow) (by rw [← hw]; exact hcol)
    rw [← hw] at hc2'
    rw [hc2']
    rw [Universe.readCell_congr hw ha, Universe.live_neighbor_count_congr hw hh ha]
  · have e1 : v1.activeCells[n]? = none :=
      List.getElem?_eq_none (by rw [hlen1]; omega)
    have e2 : v2.activeCells[n]? = none :=
      List.getElem?_eq_none (by rw [hlen2, ← hw, ← hh]; omega)
    rw [e1, e2]

/-! ## Claim C2 -/

set_option maxRecDepth 100000 in
theorem blinker_tick0 : blinkerU.tick = some blinkerB1 := by decide

set_option maxRecDepth 100000 in
theorem blinker_tick1 : blinkerB1.tick = some blinkerB2 := by decide

set_option maxRecDepth 100000 in
theorem blinker_tick2 : blinkerB2.tick = some blinkerB1 := by decide

theorem blinker_cycle (n : Nat) :
    Universe.tickN n blinkerB1
        = some (if n % 2 = 0 then blinkerB1 else blinkerB2) ∧
      Universe.tickN n blinkerB2
        = some (if n % 2 = 0 then blinkerB2 else blinkerB1) := by
  induction n with
  | zero => exact ⟨rfl, rfl⟩
  | succ n ih =>
    constructor
    · show blinkerB1.tick.bind (Universe.tickN n) = _
      rw [blinker_tick1]
      show Universe.tickN n blinkerB2 = _
      rw [ih.2]
      by_cases h : n % 2 = 0
      · rw [if_pos h, if_neg (show ¬ ((n + 1) % 2 = 0) by omega)]
      · rw [if_neg h, if_pos (show (n + 1) % 2 = 0 by omega)]
    · show blinkerB2.tick.bind (Universe.tickN n) = _
      rw [blinker_tick2]
      show Universe.tickN n blinkerB1 = _
      rw [ih.1]
      by_cases h : n % 2 = 0
      · rw [if_pos h, if_neg (show ¬ ((n + 1) % 2 = 0) by omega)]
      · rw [if_neg h, if_pos (show (n + 1) % 2 = 0 by omega)]

/-- Claim C2 (confirmed): the next generation is a function of the pre-tick
active buffer alone - two universes agreeing on dimensions, active index and
active buffer contents produce identical new active buffers - and the 3-cell
blinker alternates between its two states under every number of ticks. -/
theorem tick_uses_pre_tick_values_only :
    (∀ u1 u2 : Universe, u1.Wf → u2.Wf → u1.width = u2.width →
      u1.height = u2.height → u1.i = u2.i →
      u1.activeCells = u2.activeCells →
      u1.tick.map Universe.activeCells = u2.tick.map Universe.activeCells) ∧
    (∀ n : Nat, ∃ v, Universe.tickN n blinkerU = some v ∧
      v.activeCells = if n % 2 = 0 then blinkH else blinkV) := by
  constructor
  · intro u1 u2 h1 h2 hw hh hi ha
    obtain ⟨v1, v2, ht1, ht2, hacts, _, _⟩ := tick_active_agree h1 h2 hw hh ha
    rw [ht1, ht2, Option.map_some', Option.map_some', hacts]
  · intro n
    cases n with
    | zero => exact ⟨blinkerU, rfl, by decide⟩
    | succ n =>
      have hstep : Universe.tickN (n + 1) blinkerU
          = Universe.tickN n blinkerB1 := by
        show blinkerU.tick.bind (Universe.tickN n) = _
        rw [blinker_tick0]
        rfl
      rw [hstep, (blinker_cycle n).1]
      refine ⟨_, rfl, ?_⟩
      by_cases h : n % 2 = 0
      · rw [if_pos h, if_neg (show ¬ ((n + 1) % 2 = 0) by omega)]
        decide
      · rw [if_neg h, if_pos (show (n + 1) % 2 = 0 by omega)]
        decide

/-- Claim C2 witness: the blinker state after five ticks is the vertical
phase. -/
theorem tick_uses_pre_tick_values_only_witness :
    ∃ v, Universe.tickN 5 blinkerU = some v ∧
      v.activeCells = if 5 % 2 = 0 then blinkH else blinkV :=
  tick_uses_pre_tick_values_only.2 5

/-! ## Claim C10 -/

/-- Claim C10 (confirmed): two universes agreeing on width, height, active
index and the full active buffer, with arbitrary inactive buffer contents,
tick to states with identical observables: width, height and new active
buffer. -/
theorem tick_observables_ignore_inactive_buffer (u1 u2 : Universe)
    (hWf1 : u1.Wf) (hWf2 : u2.Wf) (hw : u1.width = u2.width)
    (hh : u1.height = u2.height) (hi : u1.i = u2.i)
    (ha : u1.activeCells = u2.activeCells) :
    ∃ v1 v2, u1.tick = some v1 ∧ u2.tick = some v2 ∧
      v1.width = v2.width ∧ v1.height = v2.height ∧
      v1.activeCells = v2.activeCells := by
  obtain ⟨v1, v2, ht1, ht2, ha', hw', hh'⟩ :=
    tick_active_agree hWf1 hWf2 hw hh ha
  exact ⟨v1, v2, ht1, ht2, hw', hh', ha'⟩

/-- Claim C10 witness: the blinker with an all-dead inactive buffer and the
blinker with an all-live inactive buffer tick to the same observables. -/
theorem tick_observables_ignore_inactive_buffer_witness :
    ∃ v1 v2, blinkerU.tick = some v1 ∧ blinkerUAlt.tick = some v2 ∧
      v1.width = v2.width ∧ v1.height = v2.height ∧
      v1.activeCells = v2.activeCells :=
  tick_observables_ignore_inactive_buffer blinkerU blinkerUAlt (by decide)
    (by decide) rfl rfl rfl rfl

/-! ## Claim C5 -/

/-- Claim C5 (confirmed): both cell buffers, the active one in particular,
hold exactly width * height bits after every operation: construction by
empty or random establishes the invariant and tick, toggle_cell, set_cells,
clear, shuffle, pattern insertion (insert_at, hence add_glider,
add_space_ship and add_pulsar), set_width and set_height preserve it. -/
theorem raw_cells_length_invariant :
    (∀ u : Universe, u.Wf → u.activeCells.length = u.width * u.height) ∧
    (∀ w h u, Universe.empty w h = some u → u.Wf) ∧
    (∀ w h rand u, Universe.random w h rand = some u → u.Wf) ∧
    (∀ u v : Universe, u.Wf → u.tick = some v → v.Wf) ∧
    (∀ (u v : Universe) r c, u.Wf → u.toggle_cell r c = some v → v.Wf) ∧
    (∀ (u v : Universe) cs, u.Wf → u.set_cells cs = some v → v.Wf) ∧
    (∀ u : Universe, u.Wf → u.clear.Wf) ∧
    (∀ (u v : Universe) rand, u.Wf → u.shuffle rand = some v → v.Wf) ∧
    (∀ (u v : Universe) row col img pw ph, u.Wf →
      u.insert_at row col img pw ph = some v → v.Wf) ∧
    (∀ (u v : Universe) w2, u.set_width w2 = some v → v.Wf) ∧
    (∀ (u v : Universe) h2, u.set_height h2 = some v → v.Wf) :=
  ⟨fun _ hWf => Universe.activeCells_length hWf,
   fun _ _ _ he => Universe.empty_Wf he,
   fun _ _ _ _ hr => Universe.random_Wf hr,
   fun _ _ hWf ht => Universe.tick_Wf hWf ht,
   fun _ _ _ _ hWf ht => Universe.toggle_cell_Wf hWf ht,
   fun _ _ _ hWf hs => Universe.set_cells_Wf hWf hs,
   fun _ hWf => Universe.clear_Wf hWf,
   fun _ _ _ hWf hs => Universe.shuffle_Wf hWf hs,
   fun _ _ _ _ _ _ _ hWf hi => Universe.insert_at_Wf hWf hi,
   fun _ _ _ hs => Universe.set_width_Wf hs,
   fun _ _ _ hs => Universe.set_height_Wf hs⟩

/-- Claim C5 witness: the invariant holds on the concrete 2 x 2 grid. -/
theorem raw_cells_length_invariant_witness :
    u22.activeCells.length = u22.width * u22.height :=
  raw_cells_length_invariant.1 u22 (by decide)

/-! ## Claim C6 -/

/-- Claim C6, shown false as stated: empty accepts a zero width without any
error and returns a grid whose width is 0, instead of rejecting the
configuration. -/
theorem construction_accepts_zero_dimension :
    (Universe.empty 0 5).isSome = true ∧
    Universe.empty 0 5 = some ⟨0, 5, [], [], 0⟩ ∧
    (⟨0, 5, [], [], 0⟩ : Universe).width = 0 := by decide

/-- Claim C6, amended: construction (empty, random) and resize (set_width,
set_height) fail exactly when the requested cell count width * height
overflows the addressable u32 range; a zero width or height is accepted
silently and yields a zero-cell grid, not an error. -/
theorem construction_fails_iff_overflow :
    (∀ w h, (Universe.empty w h).isSome = true ↔ w * h < u32Bound) ∧
    (∀ w h rand, (Universe.random w h rand).isSome = true ↔
      w * h < u32Bound) ∧
    (∀ (u : Universe) w2, (u.set_width w2).isSome = true ↔
      w2 * u.height < u32Bound) ∧
    (∀ (u : Universe) h2, (u.set_height h2).isSome = true ↔
      u.width * h2 < u32Bound) := by
  refine ⟨Universe.empty_isSome_iff, ?_, ?_, ?_⟩
  · intro w h rand
    rcases he : Universe.empty w h with _ | u0
    · have : ¬ w * h < u32Bound := by
        rw [← Universe.empty_isSome_iff w h, he]
        simp
      simp [Universe.random, he, this]
    · have hsome : w * h < u32Bound := by
        rw [← Universe.empty_isSome_iff w h, he]
        simp
      obtain ⟨v, hv, _⟩ := Universe.shuffle_spec u0 rand
      simp [Universe.random, he, hv, hsome]
  · intro u w2
    rw [Universe.set_width_eq]
    split <;> simp_all
  · intro u h2
    rw [Universe.set_height_eq]
    split <;> simp_all

/-! ## Claim C8 -/

/-- Claim C8 (confirmed): after a successful set_width to a new width every
cell reads dead, width reports the new value, height is unchanged, and
symmetrically for set_height - resizing never preserves prior content. -/
theorem resize_resets_cells :
    (∀ (u v : Universe) (w2 : Nat), w2 ≠ u.width → u.set_width w2 = some v →
      v.width = w2 ∧ v.height = u.height ∧ ∀ r c, v.readCell r c = false) ∧
    (∀ (u v : Universe) (h2 : Nat), h2 ≠ u.height → u.set_height h2 = some v →
      v.width = u.width ∧ v.height = h2 ∧ ∀ r c, v.readCell r c = false) := by
  constructor
  · intro u v w2 hne hs
    obtain ⟨h1, h2, h3, h4, h5⟩ := Universe.set_width_spec hs
    refine ⟨h1, h2, ?_⟩
    intro r c
    unfold Universe.readCell fbs_contains Universe.get_index
    rcases Universe.bufAt_cases v v.i with hb | hb
    · unfold Universe.activeCells
      rw [hb, h4, Universe.getD_replicate_false]
    · unfold Universe.activeCells
      rw [hb, h5, Universe.getD_replicate_false]
  · intro u v h2 hne hs
    obtain ⟨h1, hh2, h3, h4, h5⟩ := Universe.set_height_spec hs
    refine ⟨h1, hh2, ?_⟩
    intro r c
    unfold Universe.readCell fbs_contains Universe.get_index
    rcases Universe.bufAt_cases v v.i with hb | hb
    · unfold Universe.activeCells
      rw [hb, h4, Universe.getD_replicate_false]
    · unfold Universe.activeCells
      rw [hb, h5, Universe.getD_replicate_false]

/-- Claim C8 witness: resizing the 2 x 2 grid to width 3 resets it. -/
theorem resize_resets_cells_witness :
    (⟨3, 2, List.replicate 6 false, List.replicate 6 false, 0⟩ :
        Universe).width = 3 ∧
      (⟨3, 2, List.replicate 6 false, List.replicate 6 false, 0⟩ :
        Universe).height = u22.height ∧
      ∀ r c, (⟨3, 2, List.replicate 6 false, List.replicate 6 false, 0⟩ :
        Universe).readCell r c = false :=
  resize_resets_cells.1 u22
    ⟨3, 2, List.replicate 6 false, List.replicate 6 false, 0⟩ 3
    (by decide) (by decide)

/-! ## Claim C7 -/

theorem set_cells_singleton (u : Universe) (row col : Nat) :
    u.set_cells [(row, col)]
      = (fbs_set u.activeCells (row * u.width + col) true).map fun b =>
        u.setBufAt u.i b := rfl

/-- Claim C7, shown false as stated: on the all-dead 2 x 2 grid the
out-of-range coordinate (0, 2) is accepted by toggle_cell without failure
and flips the unrelated cell (1, 0). -/
theorem toggle_out_of_range_counterexample :
    ∃ v, u22.toggle_cell 0 2 = some v ∧ ¬ 2 < u22.width ∧
      v.readCell 1 0 = true ∧ u22.readCell 1 0 = false := by
  refine ⟨⟨2, 2, [false, false, true, false], List.replicate 4 false, 0⟩,
    by decide, by decide, by decide, by decide⟩

/-- Claim C7, amended: toggle_cell and set_cells check only the linear index
row * width + column against the buffer length: the call fails exactly when
that index reaches width * height, and otherwise writes the cell at that
linear index - silently modifying a different cell whenever the coordinate
itself is out of range but its linear index is not. -/
theorem toggle_checks_linear_index_only (u : Universe) (row col : Nat)
    (hWf : u.Wf) :
    (u.toggle_cell row col = none ↔
      u.width * u.height ≤ row * u.width + col) ∧
    (∀ v, u.toggle_cell row col = some v →
      v.width = u.width ∧ v.height = u.height ∧
      v.activeCells = u.activeCells.set (row * u.width + col)
        (!(u.activeCells.getD (row * u.width + col) false))) ∧
    (u.set_cells [(row, col)] = none ↔
      u.width * u.height ≤ row * u.width + col) ∧
    (∀ v, u.set_cells [(row, col)] = some v →
      v.width = u.width ∧ v.height = u.height ∧
      v.activeCells = u.activeCells.set (row * u.width + col) true) := by
  have hA : u.activeCells.length = u.width * u.height :=
    Universe.activeCells_length hWf
  have hidx : u.get_index row col = row * u.width + col := rfl
  refine ⟨?_, ?_, ?_, ?_⟩
  · rw [Universe.toggle_cell_eq, hidx, hA]
    split_ifs with hlt
    · exact iff_of_false (by simp) (by omega)
    · exact iff_of_true rfl (by omega)
  · intro v hv
    rw [Universe.toggle_cell_eq] at hv
    split at hv
    · cases hv
      exact ⟨Universe.setBufAt_width u _ _, Universe.setBufAt_height u _ _,
        Universe.activeCells_setBufAt_active u _⟩
    · cases hv
  · rw [set_cells_singleton]
    unfold fbs_set
    rw [hA]
    split_ifs with hlt
    · exact iff_of_false (by simp) (by omega)
    · exact iff_of_true rfl (by omega)
  · intro v hv
    rw [set_cells_singleton] at hv
    unfold fbs_set at hv
    split at hv
    · rw [Option.map_some'] at hv
      cases hv
      exact ⟨Universe.setBufAt_width u _ _, Universe.setBufAt_height u _ _,
        Universe.activeCells_setBufAt_active u _⟩
    · cases hv

/-- Claim C7 witness: the amended statement at the 2 x 2 grid with the
out-of-range coordinate (0, 2). -/
theorem toggle_checks_linear_index_only_witness :
    (u22.toggle_cell 0 2 = none ↔
      u22.width * u22.height ≤ 0 * u22.width + 2) ∧
    (∀ v, u22.toggle_cell 0 2 = some v →
      v.width = u22.width ∧ v.height = u22.height ∧
      v.activeCells = u22.activeCells.set (0 * u22.width + 2)
        (!(u22.activeCells.getD (0 * u22.width + 2) false))) ∧
    (u22.set_cells [(0, 2)] = none ↔
      u22.width * u22.height ≤ 0 * u22.width + 2) ∧
    (∀ v, u22.set_cells [(0, 2)] = some v →
      v.width = u22.width ∧ v.height = u22.height ∧
      v.activeCells = u22.activeCells.set (0 * u22.width + 2) true) :=
  toggle_checks_linear_index_only u22 0 2 (by decide)

/-! ## Claim C4 -/

/-- Claim C4, shown false as stated: inserting the 3 x 3 glider on the
all-dead 2 x 2 grid makes cell ((0 + 0) mod 2, (0 + 0) mod 2) live even
though the pattern bit at local position (0, 0) is dead - several local
positions collide on the same grid cell and the last write wins. -/
theorem insert_at_counterexample :
    ∃ v, u22.add_glider 0 0 = some v ∧
      v.readCell ((0 + 0) % u22.height) ((0 + 0) % u22.width) = true ∧
      Universe.glider_img.getD (0 * 3 + 0) false = false := by
  refine ⟨⟨2, 2, [true, true, true, false], List.replicate 4 false, 0⟩,
    by decide, by decide, by decide⟩

/-- Claim C4, amended: when the pattern fits in the grid (pattern width at
most grid width, pattern height at most grid height, so no two local
positions collide), insert_at sets every addressed wrapped cell to exactly
the pattern bit, overwriting alive or dead, and leaves every cell it does
not address unchanged. -/
theorem insert_at_applies_pattern_bits (u : Universe) (row col : Nat)
    (img : List Bool) (pw ph : Nat) (hWf : u.Wf) (hw : 1 ≤ u.width)
    (hh : 1 ≤ u.height) (hpw : pw ≤ u.width) (hph : ph ≤ u.height)
    (himg : pw * ph ≤ img.length) :
    ∃ v, u.insert_at row col img pw ph = some v ∧ v.width = u.width ∧
      v.height = u.height ∧ v.i = u.i ∧
      (∀ r c, r < ph → c < pw →
        v.readCell ((row + r) % u.height) ((col + c) % u.width)
          = img.getD (r * pw + c) false) ∧
      (∀ r' c', r' < u.height → c' < u.width →
        (¬ ∃ r c, r < ph ∧ c < pw ∧ r' = (row + r) % u.height ∧
          c' = (col + c) % u.width) →
        v.readCell r' c' = u.readCell r' c') :=
  Universe.insert_at_spec hWf hw hh hpw hph himg

/-- Claim C4 witness: the glider inserted at (0, 0) of the all-dead 8 x 8
grid. -/
theorem insert_at_applies_pattern_bits_witness :
    ∃ v, u88.insert_at 0 0 Universe.glider_img 3 3 = some v ∧
      v.width = u88.width ∧ v.height = u88.height ∧ v.i = u88.i ∧
      (∀ r c, r < 3 → c < 3 →
        v.readCell ((0 + r) % u88.height) ((0 + c) % u88.width)
          = Universe.glider_img.getD (r * 3 + c) false) ∧
      (∀ r' c', r' < u88.height → c' < u88.width →
        (¬ ∃ r c, r < 3 ∧ c < 3 ∧ r' = (0 + r) % u88.height ∧
          c' = (0 + c) % u88.width) →
        v.readCell r' c' = u88.readCell r' c') :=
  insert_at_applies_pattern_bits u88 0 0 Universe.glider_img 3 3 (by decide)
    (by decide) (by decide) (by decide) (by decide) (by decide)

/-! ## Claim C9 -/

set_option maxRecDepth 1000000 in
/-- Claim C9 (confirmed): inserting the 3 x 3 glider at (0, 0) on the empty
8 x 8 grid and ticking four times yields exactly the initial live-cell
readout translated by one cell diagonally, with toroidal wraparound: the
result at (r, c) equals the freshly inserted state at
((r + 7) mod 8, (c + 7) mod 8). -/
theorem glider_translates_diagonally_in_four_ticks :
    (((Universe.empty 8 8).bind fun u => u.add_glider 0 0).bind
        (Universe.tickN 4)).map
        (fun u => (List.range 8).map fun r =>
          (List.range 8).map fun c => u.readCell r c)
      = ((Universe.empty 8 8).bind fun u => u.add_glider 0 0).map
        (fun u => (List.range 8).map fun r =>
          (List.range 8).map fun c =>
            u.readCell ((r + 7) % 8) ((c + 7) % 8)) := by decide
